import Mathlib

/-!
Verification of the ashell notification core: the notification entity and
retained list (services/notifications/mod.rs), the protocol daemon's id
assignment, hint parsing and auto-expiry decision (services/notifications/dbus.rs),
and the popup lifecycle engine (popup.rs).

Time is modelled with rationals: a monotonic Instant is a rational number,
a Duration a nonnegative rational, and Instant::duration_since (which
saturates at zero) is max (now - started) 0.  The f32 arithmetic of the
easing and height functions is modelled with exact rational arithmetic.
Machine integers: notification ids are u32, modelled as Nat with explicit
wrap-around modulo 2^32 where the counter overflows; timeouts are i32 values
that the code only compares against 0, modelled as Int.
-/

/-- Urgency levels, from services/notifications/mod.rs. -/
inductive Urgency
  | low
  | normal
  | critical
deriving DecidableEq

/-- Close reasons, from services/notifications/mod.rs (Expired=1, Dismissed=2, ByApi=3). -/
inductive CloseReason
  | expired
  | dismissed
  | byApi
deriving DecidableEq

/-- The notification record, from services/notifications/mod.rs.  The icon
handle (an external iced image/svg handle produced by resolve_icon) is out of
the model; the chrono timestamp is modelled as an integer capture time. -/
structure Notification where
  id : Nat
  app_name : String
  app_icon : String
  summary : String
  body : String
  actions : List (String × String)
  urgency : Urgency
  expire_timeout : Int
  timestamp : Int
  transient : Bool
deriving DecidableEq

/-- Animation phases of a popup entry, from popup.rs. -/
inductive PopupPhase
  | slideIn
  | display
  | slideOut
deriving DecidableEq

/-- A popup entry, from popup.rs. -/
structure PopupEntry where
  notification : Notification
  phase : PopupPhase
  phase_started : ℚ
  display_duration : ℚ
deriving DecidableEq

/-- The popup engine state, from popup.rs. -/
structure PopupState where
  entries : List PopupEntry
  max_visible : Nat
  animation_duration : ℚ
deriving DecidableEq

/-- Instant::duration_since: elapsed time, saturating at zero.  Written
with an explicit branch (equal to max (now - started) 0, see
durationSince_eq_max) so that concrete states evaluate by reduction. -/
def durationSince (now started : ℚ) : ℚ :=
  if now - started ≤ 0 then 0 else now - started

/-- ease_out_cubic from popup.rs: 1 - (1 - t)^3. -/
def ease_out_cubic (t : ℚ) : ℚ :=
  1 - (1 - t) ^ 3

/-- ease_in_cubic from popup.rs: t^3. -/
def ease_in_cubic (t : ℚ) : ℚ :=
  t * t * t

/-- ease_out_back from popup.rs, with c1 = 1.70158 and c3 = c1 + 1. -/
def ease_out_back (t : ℚ) : ℚ :=
  1 + (170158 / 100000 + 1) * (t - 1) ^ 3 + (170158 / 100000) * (t - 1) ^ 2

/-- Number of entries whose phase is not SlideOut (the count the enqueue
loop of popup.rs filters for). -/
def countActive (es : List PopupEntry) : Nat :=
  (es.filter (fun e => e.phase != PopupPhase.slideOut)).length

/-- One iteration's effect of the enqueue eviction loop of popup.rs:
find the first entry whose phase is not SlideOut and force it into
SlideOut with phase_started = now. -/
def slideOutFirstActive (now : ℚ) : List PopupEntry → List PopupEntry
  | [] => []
  | e :: es =>
    if e.phase != PopupPhase.slideOut then
      { e with phase := PopupPhase.slideOut, phase_started := now } :: es
    else
      e :: slideOutFirstActive now es

/-- The enqueue eviction loop of popup.rs: while more than maxVisible
entries are not SlideOut, force the first non-SlideOut entry into SlideOut.
Each iteration lowers the non-SlideOut count by one, so fuel = list length
always suffices; the caller passes that fuel. -/
def evictLoop (now : ℚ) (maxVisible : Nat) : Nat → List PopupEntry → List PopupEntry
  | 0, es => es
  | fuel + 1, es =>
    if countActive es > maxVisible then
      evictLoop now maxVisible fuel (slideOutFirstActive now es)
    else
      es

/-- PopupState::enqueue from popup.rs: drop any entry with the same
notification id, push a fresh SlideIn entry at now, then run the
max_visible eviction loop. -/
def PopupState.enqueue (st : PopupState) (n : Notification) (d : ℚ) (now : ℚ) : PopupState :=
  let retained := st.entries.filter (fun e => e.notification.id != n.id)
  let pushed := retained ++ [⟨n, PopupPhase.slideIn, now, d⟩]
  { st with entries := evictLoop now st.max_visible pushed.length pushed }

/-- Repeatedly force the first non-SlideOut entry into SlideOut, k times.
This follows the spec's description of eviction — the k oldest (frontmost)
non-SlideOut entries, and only those, go to SlideOut — and is compared
with the source's evictLoop. -/
def slideOutFirstActiveK (now : ℚ) : Nat → List PopupEntry → List PopupEntry
  | 0, es => es
  | k + 1, es => slideOutFirstActiveK now k (slideOutFirstActive now es)

/-- Phase step of one entry inside PopupState::tick from popup.rs. -/
def tickEntry (anim now : ℚ) (e : PopupEntry) : PopupEntry :=
  let elapsed := durationSince now e.phase_started
  match e.phase with
  | PopupPhase.slideIn =>
    if elapsed ≥ anim then { e with phase := PopupPhase.display, phase_started := now } else e
  | PopupPhase.display =>
    if elapsed ≥ e.display_duration then
      { e with phase := PopupPhase.slideOut, phase_started := now }
    else e
  | PopupPhase.slideOut => e

/-- Retention predicate of PopupState::tick from popup.rs: SlideOut entries
are dropped once their elapsed time reaches the animation duration. -/
def keepEntry (anim now : ℚ) (e : PopupEntry) : Bool :=
  if e.phase = PopupPhase.slideOut then
    if durationSince now e.phase_started < anim then true else false
  else
    true

/-- PopupState::tick from popup.rs: advance each entry by its phase rule,
drop completed SlideOut entries, and report whether anything changed. -/
def PopupState.tick (st : PopupState) (now : ℚ) : PopupState × Bool :=
  let stepped := st.entries.map (tickEntry st.animation_duration now)
  let phaseChanged := (st.entries.zip stepped).any (fun p => p.1.phase != p.2.phase)
  let retained := stepped.filter (keepEntry st.animation_duration now)
  let removedAny := retained.length != stepped.length
  ({ st with entries := retained }, phaseChanged || removedAny)

/-- PopupState::dismiss from popup.rs, on the entry list: the first entry
with the given notification id is forced into SlideOut at now. -/
def dismissList (id : Nat) (now : ℚ) : List PopupEntry → List PopupEntry
  | [] => []
  | e :: es =>
    if e.notification.id = id then
      { e with phase := PopupPhase.slideOut, phase_started := now } :: es
    else
      e :: dismissList id now es

/-- PopupState::dismiss from popup.rs. -/
def PopupState.dismiss (st : PopupState) (id : Nat) (now : ℚ) : PopupState :=
  { st with entries := dismissList id now st.entries }

/-- PopupState::is_active from popup.rs. -/
def PopupState.is_active (st : PopupState) : Bool :=
  !st.entries.isEmpty

/-- PopupState::entry_progress_at from popup.rs (the non-staggered,
no-overshoot progress used for surface geometry). -/
def entry_progress_at (anim : ℚ) (e : PopupEntry) (now : ℚ) : ℚ :=
  let elapsed := durationSince now e.phase_started
  match e.phase with
  | PopupPhase.slideIn => ease_out_cubic (min (elapsed / anim) 1)
  | PopupPhase.display => 1
  | PopupPhase.slideOut => 1 - ease_in_cubic (min (elapsed / anim) 1)

/-- The fold computing the maximum entry progress, as in
PopupState::bubble_progress_at and target_surface_height_at of popup.rs. -/
def maxEntryProgress (anim : ℚ) (es : List PopupEntry) (now : ℚ) : ℚ :=
  (es.map (fun e => entry_progress_at anim e now)).foldl max 0

/-- PopupState::target_surface_height_at from popup.rs. -/
def PopupState.target_surface_height_at (st : PopupState) (now : ℚ) : ℚ :=
  let activeCount := countActive st.entries
  if activeCount > 0 then
    (activeCount : ℚ) * 80 + 16
  else if !st.entries.isEmpty then
    ((st.entries.length : ℚ) * 80 + 16) * maxEntryProgress st.animation_duration st.entries now
  else
    0

/-- Domain events, from services/notifications/mod.rs. -/
inductive NotificationEvent
  | notify (n : Notification)
  | closed (id : Nat) (reason : CloseReason)
deriving DecidableEq

/-- The notification service state, from services/notifications/mod.rs.
The zbus connection handle (used only to emit signals) is out of the model. -/
structure NotificationService where
  notifications : List Notification
  max_notifications : Nat
  default_timeout : Int
deriving DecidableEq

/-- The position-and-remove step of NotificationService::update: remove the
first list element with the given id, if any. -/
def removeFirstById (id : Nat) : List Notification → List Notification
  | [] => []
  | n :: ns => if n.id = id then ns else n :: removeFirstById id ns

/-- NotificationService::update (the ReadOnlyService impl) from
services/notifications/mod.rs: Notify removes any earlier entry with the
same id, drops transient non-Critical notifications, inserts at the head
and truncates to max_notifications; Closed removes by id. -/
def NotificationService.update (s : NotificationService) (ev : NotificationEvent) :
    NotificationService :=
  match ev with
  | NotificationEvent.notify n =>
    let removed := removeFirstById n.id s.notifications
    if n.transient && !(n.urgency == Urgency.critical) then
      { s with notifications := removed }
    else
      let inserted := n :: removed
      { s with
        notifications :=
          if inserted.length > s.max_notifications then
            inserted.take s.max_notifications
          else
            inserted }
  | NotificationEvent.closed id _reason =>
    { s with notifications := s.notifications.filter (fun m => m.id != id) }

/-- Number of list entries carrying a given id. -/
def countId (ns : List Notification) (id : Nat) : Nat :=
  (ns.filter (fun m => m.id == id)).length

/-- The id-counter step of NotificationDaemon::notify from
services/notifications/dbus.rs: next_id = next_id.wrapping_add(1).max(1),
on u32 values. -/
def nextIdStep (c : Nat) : Nat :=
  max ((c + 1) % 2 ^ 32) 1

/-- Id assignment of NotificationDaemon::notify: reuse a positive
replaces_id, otherwise return the counter value and advance the counter.
Result: (returned id, new counter). -/
def notifyId (replacesId c : Nat) : Nat × Nat :=
  if replacesId > 0 then (replacesId, c) else (c, nextIdStep c)

/-- Ids returned by n successive counter allocations (replaces_id = 0)
starting from counter value c. -/
def allocIds (c : Nat) : Nat → List Nat
  | 0 => []
  | n + 1 => c :: allocIds (nextIdStep c) n

/-- A D-Bus hint value as far as the daemon inspects it: a byte, a boolean,
or anything else. -/
inductive HintValue
  | u8 (n : Nat)
  | boolean (b : Bool)
  | other
deriving DecidableEq

/-- Hint map lookup (first binding wins, as in a HashMap with unique keys). -/
def lookupHint (hints : List (String × HintValue)) (k : String) : Option HintValue :=
  (hints.find? (fun p => p.1 == k)).map (fun p => p.2)

/-- Urgency hint parsing of NotificationDaemon::notify: a byte 0 maps to
Low, 2 to Critical, any other byte to Normal; absence or a non-byte value
defaults to Normal. -/
def parseUrgency (hints : List (String × HintValue)) : Urgency :=
  match lookupHint hints "urgency" with
  | some (HintValue.u8 u) =>
    if u = 0 then Urgency.low else if u = 2 then Urgency.critical else Urgency.normal
  | _ => Urgency.normal

/-- Transient hint parsing of NotificationDaemon::notify: a boolean hint
value, defaulting to false. -/
def parseTransient (hints : List (String × HintValue)) : Bool :=
  match lookupHint hints "transient" with
  | some (HintValue.boolean b) => b
  | _ => false

/-- Action pairing of NotificationDaemon::notify: the flat action list read
two at a time, a trailing unpaired element dropped. -/
def parseActions : List String → List (String × String)
  | k :: l :: rest => (k, l) :: parseActions rest
  | _ => []

/-- The effective timeout computed by NotificationDaemon::notify:
negative means the configured default, zero means never, positive is
taken as given (milliseconds). -/
def effectiveTimeoutMs (defaultTimeout expireTimeout : Int) : Int :=
  if expireTimeout < 0 then defaultTimeout
  else if expireTimeout = 0 then 0
  else expireTimeout

/-- Whether NotificationDaemon::notify spawns an auto-expiry timer: only
for non-Critical urgency and only when the effective timeout is positive. -/
def schedulesExpiryTimer (defaultTimeout : Int) (hints : List (String × HintValue))
    (expireTimeout : Int) : Bool :=
  if parseUrgency hints = Urgency.critical then
    false
  else
    decide (effectiveTimeoutMs defaultTimeout expireTimeout > 0)

/-- A concrete notification used by witnesses and counterexamples. -/
def exNotif (id : Nat) : Notification :=
  ⟨id, "App", "", "Title", "Body", [], Urgency.normal, -1, 0, false⟩

/-- A concrete transient notification. -/
def exTransient (id : Nat) : Notification :=
  ⟨id, "App", "", "Title", "Body", [], Urgency.normal, -1, 0, true⟩

/-- A concrete popup entry. -/
def exEntry (id : Nat) (ph : PopupPhase) (started d : ℚ) : PopupEntry :=
  ⟨exNotif id, ph, started, d⟩

/-- Popup state holding one entry already in SlideOut since instant 0. -/
def exSlideOutState : PopupState :=
  ⟨[exEntry 1 PopupPhase.slideOut 0 5], 3, 1⟩

/-- Popup state with zero animation duration and one Display entry whose
display duration has elapsed. -/
def exZeroAnimState : PopupState :=
  ⟨[exEntry 1 PopupPhase.display 0 0], 3, 0⟩

/-- Service state holding a single non-transient notification with id 1. -/
def exService : NotificationService :=
  ⟨[exNotif 1], 50, 5000⟩

/-- Hint map of the spec's example scenario: urgency byte 2 (Critical). -/
def exCriticalHints : List (String × HintValue) :=
  [("urgency", HintValue.u8 2)]

/-- The entry list of enqueue after the removal and push steps, before the
max_visible eviction loop runs. -/
def enqueueBase (st : PopupState) (n : Notification) (d now : ℚ) : List PopupEntry :=
  st.entries.filter (fun e => e.notification.id != n.id) ++ [⟨n, PopupPhase.slideIn, now, d⟩]

/-- Service state bounded at a single retained notification. -/
def exServiceSmall : NotificationService :=
  ⟨[exNotif 1], 1, 5000⟩

/-- A concrete entry freshly enqueued (SlideIn since instant 0). -/
def exSlideInEntry : PopupEntry :=
  exEntry 1 PopupPhase.slideIn 0 5

/-- Popup state with one SlideIn entry and animation duration 1. -/
def exSlideInState : PopupState :=
  ⟨[exSlideInEntry], 3, 1⟩

/-- Popup state with two non-SlideOut entries. -/
def exTwoActiveState : PopupState :=
  ⟨[exEntry 1 PopupPhase.display 0 5, exEntry 2 PopupPhase.slideIn 0 5], 3, 1⟩

/- ### Helper lemmas -/

theorem dismissList_of_absent (id : Nat) (now : ℚ) :
    ∀ es : List PopupEntry, (∀ e ∈ es, e.notification.id ≠ id) → dismissList id now es = es := by
  intro es
  induction es with
  | nil => intro _; rfl
  | cons e es ih =>
    intro h
    have he : e.notification.id ≠ id := h e (List.mem_cons_self e es)
    simp only [dismissList, if_neg he]
    rw [ih (fun x hx => h x (List.mem_cons_of_mem e hx))]

theorem dismissList_first_match (id : Nat) (now : ℚ) (e : PopupEntry) :
    ∀ pre post : List PopupEntry, (∀ x ∈ pre, x.notification.id ≠ id) →
      e.notification.id = id →
      dismissList id now (pre ++ e :: post) =
        pre ++ { e with phase := PopupPhase.slideOut, phase_started := now } :: post := by
  intro pre
  induction pre with
  | nil =>
    intro post _ he
    simp only [List.nil_append, dismissList, if_pos he]
  | cons x pre ih =>
    intro post h he
    have hx : x.notification.id ≠ id := h x (List.mem_cons_self x pre)
    simp only [List.cons_append, dismissList, if_neg hx, List.append_eq]
    rw [ih post (fun y hy => h y (List.mem_cons_of_mem x hy)) he]

theorem countId_removeFirstById (id : Nat) :
    ∀ ns : List Notification, countId (removeFirstById id ns) id = countId ns id - 1 := by
  intro ns
  induction ns with
  | nil => rfl
  | cons n ns ih =>
    by_cases h : n.id = id
    · simp [removeFirstById, countId, h]
    · simp only [removeFirstById, if_neg h]
      have hb : (n.id == id) = false := by simp [h]
      simp only [countId, List.filter_cons, hb]
      exact ih

theorem countId_eq_zero_iff (id : Nat) (ns : List Notification) :
    countId ns id = 0 ↔ ∀ m ∈ ns, m.id ≠ id := by
  simp only [countId, List.length_eq_zero, List.filter_eq_nil_iff]
  constructor
  · intro h m hm
    have := h m hm
    simpa using this
  · intro h m hm
    simpa using h m hm

theorem countId_pos_of_mem {ns : List Notification} {m : Notification} {id : Nat}
    (hm : m ∈ ns) (hid : m.id = id) : 0 < countId ns id := by
  have : m ∈ ns.filter (fun m => m.id == id) := by
    rw [List.mem_filter]
    exact ⟨hm, by simp [hid]⟩
  have := List.length_pos_of_mem this
  simpa [countId] using this

theorem length_removeFirstById_of_present (id : Nat) :
    ∀ ns : List Notification, 0 < countId ns id →
      (removeFirstById id ns).length = ns.length - 1 := by
  intro ns
  induction ns with
  | nil => intro h; simp [countId] at h
  | cons n ns ih =>
    intro h
    by_cases hn : n.id = id
    · simp [removeFirstById, hn]
    · have hb : (n.id == id) = false := by simp [hn]
      have h' : 0 < countId ns id := by
        simpa [countId, List.filter_cons, hb] using h
      have hlen : 1 ≤ ns.length := by
        rcases ns with _ | ⟨m, ms⟩
        · simp [countId] at h'
        · simp
      simp only [removeFirstById, if_neg hn, List.length_cons, ih h']
      omega

theorem length_removeFirstById_le (id : Nat) :
    ∀ ns : List Notification, (removeFirstById id ns).length ≤ ns.length := by
  intro ns
  induction ns with
  | nil => simp [removeFirstById]
  | cons n ns ih =>
    by_cases hn : n.id = id
    · simp [removeFirstById, hn]
    · simp only [removeFirstById, if_neg hn, List.length_cons]
      omega

theorem removeFirstById_sublist (id : Nat) :
    ∀ ns : List Notification, (removeFirstById id ns).Sublist ns := by
  intro ns
  induction ns with
  | nil => simp [removeFirstById]
  | cons n ns ih =>
    by_cases hn : n.id = id
    · simp only [removeFirstById, if_pos hn]
      exact List.sublist_cons_of_sublist n (List.Sublist.refl ns)
    · simp only [removeFirstById, if_neg hn]
      exact List.Sublist.cons₂ n ih

theorem countId_sublist_le {l₁ l₂ : List Notification} (h : l₁.Sublist l₂) (i : Nat) :
    countId l₁ i ≤ countId l₂ i :=
  (h.filter _).length_le

theorem countId_cons (n : Notification) (ns : List Notification) (i : Nat) :
    countId (n :: ns) i = (if n.id = i then 1 else 0) + countId ns i := by
  by_cases hn : n.id = i
  · simp [countId, List.filter_cons, hn]
    omega
  · simp [countId, List.filter_cons, hn]

/-- The at-most-one-entry-per-id invariant assumed by the replacement
claims is genuine: update preserves it from any state satisfying it. -/
theorem update_preserves_countId_le_one (s : NotificationService)
    (h : ∀ i, countId s.notifications i ≤ 1) (ev : NotificationEvent) (i : Nat) :
    countId ((s.update ev).notifications) i ≤ 1 := by
  cases ev with
  | notify n =>
    have hremle : countId (removeFirstById n.id s.notifications) i ≤
        countId s.notifications i :=
      countId_sublist_le (removeFirstById_sublist n.id s.notifications) i
    have hcons : countId (n :: removeFirstById n.id s.notifications) i ≤ 1 := by
      rw [countId_cons]
      by_cases hi : n.id = i
      · have hself := countId_removeFirstById n.id s.notifications
        have := h n.id
        rw [hi] at hself
        subst hi
        simp only [eq_self_iff_true, if_true]
        omega
      · have := h i
        simp only [if_neg hi]
        omega
    by_cases hc : (n.transient && !(n.urgency == Urgency.critical)) = true
    · simp only [NotificationService.update, hc, if_pos]
      exact le_trans hremle (h i)
    · simp only [NotificationService.update, hc, Bool.not_eq_true, if_neg]
      by_cases hlen : (n :: removeFirstById n.id s.notifications).length > s.max_notifications
      · simp only [if_pos hlen]
        exact le_trans
          (countId_sublist_le (List.take_sublist s.max_notifications _) i) hcons
      · simp only [if_neg hlen]
        exact hcons
  | closed id reason =>
    simp only [NotificationService.update]
    exact le_trans (countId_sublist_le (List.filter_sublist _) i) (h i)

/- ### C1 -/

/-- C1 counterexample: dismissing an id whose entry is already in SlideOut is
not a no-op — the code resets that entry's phase_started to now, so the state
changes (here phase_started goes from 0 to 1). -/
theorem dismiss_slideOut_changes_state :
    (PopupState.dismiss exSlideOutState 1 1).entries ≠ exSlideOutState.entries := by
  decide

/-- C1 (amended): dismiss(id) on a state with no entry carrying that id
changes nothing; dismiss(id) when the first entry carrying that id is
already in SlideOut keeps the entry set, every entry's phase and every
display_duration, but resets that entry's phase_started to now. -/
theorem dismiss_absent_noop_slideOut_restarts (st : PopupState) (id : Nat) (now : ℚ) :
    ((∀ e ∈ st.entries, e.notification.id ≠ id) → st.dismiss id now = st) ∧
    (∀ pre e post, st.entries = pre ++ e :: post →
      (∀ x ∈ pre, x.notification.id ≠ id) →
      e.notification.id = id →
      e.phase = PopupPhase.slideOut →
      (st.dismiss id now).entries = pre ++ { e with phase_started := now } :: post) := by
  constructor
  · intro h
    simp only [PopupState.dismiss, dismissList_of_absent id now st.entries h]
  · intro pre e post hsplit hpre he hphase
    have : { e with phase := PopupPhase.slideOut, phase_started := now } =
        { e with phase_started := now } := by
      cases e
      simp_all
    simp only [PopupState.dismiss, hsplit, dismissList_first_match id now e pre post hpre he, this]

/-- C1 witness: dismissing the already-SlideOut entry of a concrete state at
now = 7 leaves everything unchanged except that entry's phase_started. -/
theorem dismiss_absent_noop_slideOut_restarts_witness :
    (PopupState.dismiss exSlideOutState 1 7).entries =
      [{ exEntry 1 PopupPhase.slideOut 0 5 with phase_started := 7 }] := by
  have h := (dismiss_absent_noop_slideOut_restarts exSlideOutState 1 7).2
    [] (exEntry 1 PopupPhase.slideOut 0 5) [] rfl (by simp) rfl rfl
  simpa using h

/- ### C2 -/

/-- C2: on a list holding at most one entry per the incoming id, a Notify
of a transient, non-Critical notification leaves no retained entry with
that id, whatever its expire_timeout: the notification is never stored. -/
theorem transient_notify_never_retained (s : NotificationService) (n : Notification)
    (ht : n.transient = true) (hu : n.urgency ≠ Urgency.critical)
    (huniq : countId s.notifications n.id ≤ 1) :
    countId (s.update (NotificationEvent.notify n)).notifications n.id = 0 := by
  have hcond : (n.transient && !(n.urgency == Urgency.critical)) = true := by
    have : (n.urgency == Urgency.critical) = false := by
      simpa using hu
    simp [ht, this]
  simp only [NotificationService.update, hcond, if_pos]
  have := countId_removeFirstById n.id s.notifications
  omega

/-- C2 witness: a concrete transient Normal-urgency notification with
expire_timeout = -1 whose id is already retained is gone after update. -/
theorem transient_notify_never_retained_witness :
    countId (exService.update (NotificationEvent.notify (exTransient 1))).notifications
      (exTransient 1).id = 0 :=
  transient_notify_never_retained exService (exTransient 1) rfl (by decide) (by decide)

/- ### C3 -/

/-- C3 counterexample: a Notify whose id already appears in the list can
leave zero entries with that id (not exactly one at index 0) — a transient
non-Critical notification removes the old entry and stores nothing. -/
theorem notify_replace_can_leave_no_entry :
    (∃ m ∈ exService.notifications, m.id = (exTransient 1).id) ∧
      (exService.update (NotificationEvent.notify (exTransient 1))).notifications = [] := by
  constructor
  · exact ⟨exNotif 1, by decide, by decide⟩
  · decide

/-- C3 (amended): on a list within its bound holding at most one entry per
the incoming id, a Notify whose id already appears and which is actually
stored (not transient-and-non-Critical) yields exactly one entry with that
id, at index 0. -/
theorem notify_replaces_at_head (s : NotificationService) (n : Notification)
    (hmem : ∃ m ∈ s.notifications, m.id = n.id)
    (huniq : countId s.notifications n.id ≤ 1)
    (hlen : s.notifications.length ≤ s.max_notifications)
    (hstore : ¬(n.transient = true ∧ n.urgency ≠ Urgency.critical)) :
    (s.update (NotificationEvent.notify n)).notifications.head? = some n ∧
      countId (s.update (NotificationEvent.notify n)).notifications n.id = 1 := by
  obtain ⟨m, hm, hmid⟩ := hmem
  have hpos : 0 < countId s.notifications n.id := countId_pos_of_mem hm hmid
  have hcond : (n.transient && !(n.urgency == Urgency.critical)) = false := by
    by_cases htr : n.transient
    · have hcrit : n.urgency = Urgency.critical := by
        by_contra hne
        exact hstore ⟨htr, hne⟩
      simp [htr, hcrit]
    · simp [htr]
  have hrem : (removeFirstById n.id s.notifications).length = s.notifications.length - 1 :=
    length_removeFirstById_of_present n.id s.notifications hpos
  have hns : 0 < s.notifications.length := List.length_pos_of_mem hm
  have hlen' : ¬ ((n :: removeFirstById n.id s.notifications).length > s.max_notifications) := by
    simp only [List.length_cons, hrem]
    omega
  have hcount : countId (removeFirstById n.id s.notifications) n.id = 0 := by
    have := countId_removeFirstById n.id s.notifications
    omega
  simp only [NotificationService.update, hcond, Bool.false_eq_true, if_neg, if_neg hlen']
  refine ⟨rfl, ?_⟩
  simp [countId, List.filter_cons, countId_eq_zero_iff] at hcount ⊢
  intro a ha hid
  exact absurd hid (hcount a ha)

/-- C3 witness: replacing the retained id 1 with a fresh non-transient
notification of the same id leaves exactly that notification at the head. -/
theorem notify_replaces_at_head_witness :
    (exService.update (NotificationEvent.notify (exNotif 1))).notifications.head? =
        some (exNotif 1) ∧
      countId (exService.update (NotificationEvent.notify (exNotif 1))).notifications
        (exNotif 1).id = 1 :=
  notify_replaces_at_head exService (exNotif 1) ⟨exNotif 1, by decide, by decide⟩
    (by decide) (by decide) (by decide)

/- ### C4 -/

theorem nextIdStep_pos (c : Nat) : 1 ≤ nextIdStep c :=
  le_max_right _ _

theorem allocIds_eq_range' (n : Nat) :
    ∀ c : Nat, 1 ≤ c → c + n ≤ 2 ^ 32 → allocIds c n = List.range' c n := by
  induction n with
  | zero => intro c _ _; rfl
  | succ n ih =>
    intro c hc hn
    have hstep : n = 0 ∨ c + 1 < 2 ^ 32 := by omega
    rcases hstep with h0 | hlt
    · subst h0
      simp [allocIds, List.range']
    · have hmod : (c + 1) % 2 ^ 32 = c + 1 := Nat.mod_eq_of_lt hlt
      have hnext : nextIdStep c = c + 1 := by
        unfold nextIdStep
        rw [hmod]
        exact Nat.max_eq_left (by omega)
      have := ih (c + 1) (by omega) (by omega)
      simp only [allocIds, hnext, this]
      rfl

/-- C4: id assignment of NotificationDaemon::notify — a positive
replaces_id is returned as-is without touching the counter; replaces_id = 0
returns the counter value and advances it; the advanced counter is never 0
even at wrap-around; and within one counter lifetime (no wrap) the
allocated ids are the strictly increasing run c, c+1, ..., hence pairwise
distinct and never 0. -/
theorem notify_id_assignment (r c n : Nat) (hc : 1 ≤ c) (hn : c + n ≤ 2 ^ 32) :
    (0 < r → notifyId r c = (r, c)) ∧
    notifyId 0 c = (c, nextIdStep c) ∧
    1 ≤ nextIdStep c ∧
    allocIds c n = List.range' c n ∧
    (allocIds c n).Nodup ∧
    (allocIds c n).Pairwise (· < ·) ∧
    (∀ i ∈ allocIds c n, i ≠ 0) := by
  have hr := allocIds_eq_range' n c hc hn
  refine ⟨?_, rfl, nextIdStep_pos c, hr, ?_, ?_, ?_⟩
  · intro hrpos
    simp [notifyId, hrpos]
  · rw [hr]
    exact List.nodup_range' c n
  · rw [hr]
    exact List.pairwise_lt_range' c n
  · intro i hi
    rw [hr] at hi
    have := (List.mem_range'_1.mp hi).1
    omega

/-- C4 witness: three allocations starting from a fresh counter return
1, 2, 3 — strictly increasing, distinct and nonzero — and a call with
replaces_id = 7 returns 7 unchanged. -/
theorem notify_id_assignment_witness :
    notifyId 7 1 = (7, 1) ∧ allocIds 1 3 = List.range' 1 3 ∧
      (∀ i ∈ allocIds 1 3, i ≠ 0) := by
  have h := notify_id_assignment 7 1 3 (by decide) (by norm_num)
  exact ⟨h.1 (by decide), h.2.2.2.1, h.2.2.2.2.2.2⟩

/- ### C9 -/

/-- C9: the auto-expiry decision of NotificationDaemon::notify — Critical
urgency never schedules a timer whatever expire_timeout is; otherwise the
effective timeout is the configured default for negative expire_timeout,
never for zero, and the given millisecond value when positive, and a timer
is scheduled exactly when the effective timeout is positive. -/
theorem expiry_timer_rule (d : Int) (hints : List (String × HintValue)) (t : Int) :
    (parseUrgency hints = Urgency.critical → schedulesExpiryTimer d hints t = false) ∧
    (t < 0 → effectiveTimeoutMs d t = d) ∧
    (t = 0 → schedulesExpiryTimer d hints t = false) ∧
    (0 < t → effectiveTimeoutMs d t = t) ∧
    (parseUrgency hints ≠ Urgency.critical →
      (schedulesExpiryTimer d hints t = true ↔ 0 < effectiveTimeoutMs d t)) := by
  refine ⟨?_, ?_, ?_, ?_, ?_⟩
  · intro h
    simp [schedulesExpiryTimer, h]
  · intro h
    simp [effectiveTimeoutMs, h]
  · intro h
    subst h
    by_cases hu : parseUrgency hints = Urgency.critical <;>
      simp [schedulesExpiryTimer, effectiveTimeoutMs, hu]
  · intro h
    have h1 : ¬ (t < 0) := by omega
    have h2 : ¬ (t = 0) := by omega
    simp [effectiveTimeoutMs, h1, h2]
  · intro h
    simp [schedulesExpiryTimer, h]

/-- C9 witness: the spec's example scenario — urgency hint byte 2
(Critical) with expire_timeout = -1 and default timeout 5000 — schedules
no auto-expiry timer. -/
theorem expiry_timer_rule_witness :
    schedulesExpiryTimer 5000 exCriticalHints (-1) = false :=
  (expiry_timer_rule 5000 exCriticalHints (-1)).1 (by decide)

/- ### C8 -/

theorem store_cond_false {n : Notification}
    (hstore : ¬(n.transient = true ∧ n.urgency ≠ Urgency.critical)) :
    (n.transient && !(n.urgency == Urgency.critical)) = false := by
  by_cases htr : n.transient
  · have hcrit : n.urgency = Urgency.critical := by
      by_contra hne
      exact hstore ⟨htr, hne⟩
    simp [htr, hcrit]
  · simp [htr]

/-- C8: starting from a list within its bound, any update event (Notify or
Closed) keeps the list within max_notifications, and a stored Notify yields
exactly the head-inserted list truncated at the tail — only the oldest
entries are dropped. -/
theorem update_preserves_bound (s : NotificationService)
    (h : s.notifications.length ≤ s.max_notifications) :
    (∀ ev : NotificationEvent,
      (s.update ev).notifications.length ≤ s.max_notifications) ∧
    (∀ n : Notification, ¬(n.transient = true ∧ n.urgency ≠ Urgency.critical) →
      (s.update (NotificationEvent.notify n)).notifications =
        (n :: removeFirstById n.id s.notifications).take s.max_notifications) := by
  constructor
  · intro ev
    cases ev with
    | notify n =>
      by_cases hc : (n.transient && !(n.urgency == Urgency.critical)) = true
      · simp only [NotificationService.update, hc, if_pos]
        have := length_removeFirstById_le n.id s.notifications
        omega
      · simp only [NotificationService.update, hc, if_neg, Bool.not_eq_true]
        by_cases hlen : (n :: removeFirstById n.id s.notifications).length > s.max_notifications
        · simp only [if_pos hlen, List.length_take]
          omega
        · simp only [if_neg hlen]
          omega
    | closed id reason =>
      simp only [NotificationService.update]
      have := List.length_filter_le (fun m => m.id != id) s.notifications
      omega
  · intro n hstore
    have hc := store_cond_false hstore
    simp only [NotificationService.update, hc, Bool.false_eq_true, if_false]
    by_cases hlen : (n :: removeFirstById n.id s.notifications).length > s.max_notifications
    · simp only [if_pos hlen]
    · simp only [if_neg hlen]
      have hle : (n :: removeFirstById n.id s.notifications).length ≤ s.max_notifications := by
        omega
      exact (List.take_of_length_le hle).symm

/-- C8 witness: a service bounded at one entry receives a second id — the
result is the head-inserted list truncated to one element, within bound. -/
theorem update_preserves_bound_witness :
    (exServiceSmall.update (NotificationEvent.notify (exNotif 2))).notifications =
        (exNotif 2 :: removeFirstById (exNotif 2).id exServiceSmall.notifications).take 1 ∧
      (exServiceSmall.update (NotificationEvent.notify (exNotif 2))).notifications.length ≤ 1 :=
  ⟨(update_preserves_bound exServiceSmall (by decide)).2 (exNotif 2) (by decide),
   (update_preserves_bound exServiceSmall (by decide)).1 (NotificationEvent.notify (exNotif 2))⟩

/- ### C5 -/

theorem countActive_le_length (es : List PopupEntry) : countActive es ≤ es.length :=
  List.length_filter_le _ es

theorem countActive_slideOutFirstActive (now : ℚ) :
    ∀ es : List PopupEntry, 0 < countActive es →
      countActive (slideOutFirstActive now es) = countActive es - 1 := by
  intro es
  induction es with
  | nil => intro h; simp [countActive] at h
  | cons e es ih =>
    intro h
    by_cases hp : (e.phase != PopupPhase.slideOut) = true
    · simp [slideOutFirstActive, hp, countActive, List.filter_cons]
    · have hp' : (e.phase != PopupPhase.slideOut) = false := by
        simpa using hp
      have h' : 0 < countActive es := by
        simpa [countActive, List.filter_cons, hp'] using h
      have hrec := ih h'
      simp only [countActive] at hrec
      simp [slideOutFirstActive, countActive, List.filter_cons, hp', hrec]

theorem evictLoop_eq_slideOutFirstActiveK (now : ℚ) (mv : Nat) :
    ∀ fuel es, countActive es - mv ≤ fuel →
      evictLoop now mv fuel es = slideOutFirstActiveK now (countActive es - mv) es := by
  intro fuel
  induction fuel with
  | zero =>
    intro es h
    have h0 : countActive es - mv = 0 := by omega
    rw [h0]
    rfl
  | succ fuel ih =>
    intro es h
    by_cases hgt : countActive es > mv
    · have hpos : 0 < countActive es := by omega
      have hcount := countActive_slideOutFirstActive now es hpos
      obtain ⟨k, hk⟩ : ∃ k, countActive es - mv = k + 1 := ⟨countActive es - mv - 1, by omega⟩
      have hrec := ih (slideOutFirstActive now es) (by omega)
      rw [hcount] at hrec
      have hk' : countActive es - 1 - mv = k := by omega
      rw [hk'] at hrec
      simp only [evictLoop, if_pos hgt, hrec, hk]
      rfl
    · have h0 : countActive es - mv = 0 := by omega
      simp only [evictLoop, if_neg hgt, h0]
      rfl

theorem countActive_slideOutFirstActiveK (now : ℚ) :
    ∀ (k : Nat) (es : List PopupEntry), k ≤ countActive es →
      countActive (slideOutFirstActiveK now k es) = countActive es - k := by
  intro k
  induction k with
  | zero => intro es _; simp [slideOutFirstActiveK]
  | succ k ih =>
    intro es hk
    have hpos : 0 < countActive es := by omega
    have h1 := countActive_slideOutFirstActive now es hpos
    have hrec := ih (slideOutFirstActive now es) (by omega)
    simp only [slideOutFirstActiveK, hrec, h1]
    omega

/-- C5: enqueue removes any entry with the incoming id, appends a fresh
SlideIn entry at now, and its eviction loop forces exactly the surplus of
non-SlideOut entries into SlideOut, frontmost (oldest) first: the result
equals marking the first (surplus) active entries, and the final active
count is exactly min(active count after push, max_visible) — never fewer. -/
theorem enqueue_evicts_exact_surplus (st : PopupState) (n : Notification) (d now : ℚ) :
    (st.enqueue n d now).entries =
      slideOutFirstActiveK now (countActive (enqueueBase st n d now) - st.max_visible)
        (enqueueBase st n d now) ∧
    countActive (st.enqueue n d now).entries =
      min (countActive (enqueueBase st n d now)) st.max_visible := by
  have hfuel : countActive (enqueueBase st n d now) - st.max_visible ≤
      (enqueueBase st n d now).length := by
    have := countActive_le_length (enqueueBase st n d now)
    omega
  have heq : (st.enqueue n d now).entries =
      slideOutFirstActiveK now (countActive (enqueueBase st n d now) - st.max_visible)
        (enqueueBase st n d now) := by
    simp only [PopupState.enqueue, enqueueBase] at *
    exact evictLoop_eq_slideOutFirstActiveK now st.max_visible _ _ hfuel
  refine ⟨heq, ?_⟩
  rw [heq]
  have hsub : countActive (enqueueBase st n d now) - st.max_visible ≤
      countActive (enqueueBase st n d now) := Nat.sub_le _ _
  rw [countActive_slideOutFirstActiveK now _ _ hsub]
  omega

/- ### C6 -/

theorem cube_le_cube {a b : ℚ} (h : a ≤ b) : a ^ 3 ≤ b ^ 3 := by
  nlinarith [sq_nonneg (a + b), sq_nonneg (a - b), sq_nonneg a, sq_nonneg b]

theorem ease_in_cubic_mono {a b : ℚ} (h : a ≤ b) : ease_in_cubic a ≤ ease_in_cubic b := by
  have := cube_le_cube h
  simpa [ease_in_cubic, pow_succ, pow_zero, mul_assoc] using this

theorem ease_in_cubic_nonneg {t : ℚ} (h : 0 ≤ t) : 0 ≤ ease_in_cubic t := by
  simpa [ease_in_cubic] using mul_nonneg (mul_nonneg h h) h

theorem ease_out_cubic_mono {a b : ℚ} (h : a ≤ b) : ease_out_cubic a ≤ ease_out_cubic b := by
  have := cube_le_cube (sub_le_sub_left h 1)
  simp only [ease_out_cubic]
  linarith

theorem durationSince_eq_max (now started : ℚ) :
    durationSince now started = max (now - started) 0 := by
  rw [durationSince, max_def]

theorem durationSince_nonneg (now started : ℚ) : 0 ≤ durationSince now started := by
  rw [durationSince_eq_max]
  exact le_max_right _ _

theorem durationSince_mono {now1 now2 : ℚ} (started : ℚ) (h : now1 ≤ now2) :
    durationSince now1 started ≤ durationSince now2 started := by
  rw [durationSince_eq_max, durationSince_eq_max]
  exact max_le_max (sub_le_sub_right h _) le_rfl

/-- C6: entry_progress_at is monotonically non-decreasing during SlideIn,
constant 1 during Display, monotonically non-increasing during SlideOut and
exactly 0 once the SlideOut animation time has fully elapsed, and never
exceeds 1 at any sampled instant at or after phase_started. -/
theorem entry_progress_at_monotone (anim : ℚ) (e : PopupEntry) (now1 now2 : ℚ)
    (ha : 0 < anim) (_h1 : e.phase_started ≤ now1) (h12 : now1 ≤ now2) :
    (e.phase = PopupPhase.slideIn →
      entry_progress_at anim e now1 ≤ entry_progress_at anim e now2) ∧
    (e.phase = PopupPhase.display → entry_progress_at anim e now1 = 1) ∧
    (e.phase = PopupPhase.slideOut →
      entry_progress_at anim e now2 ≤ entry_progress_at anim e now1 ∧
      (e.phase_started + anim ≤ now2 → entry_progress_at anim e now2 = 0)) ∧
    entry_progress_at anim e now1 ≤ 1 := by
  have hel1 : (0 : ℚ) ≤ durationSince now1 e.phase_started := durationSince_nonneg _ _
  have hel12 : durationSince now1 e.phase_started ≤ durationSince now2 e.phase_started :=
    durationSince_mono _ h12
  have ht1nn : (0 : ℚ) ≤ min (durationSince now1 e.phase_started / anim) 1 :=
    le_min (div_nonneg hel1 ha.le) zero_le_one
  have ht1le : min (durationSince now1 e.phase_started / anim) 1 ≤ 1 := min_le_right _ _
  have ht12 : min (durationSince now1 e.phase_started / anim) 1 ≤
      min (durationSince now2 e.phase_started / anim) 1 :=
    min_le_min ((div_le_div_iff_of_pos_right ha).mpr hel12) le_rfl
  refine ⟨?_, ?_, ?_, ?_⟩
  · intro hp
    simp only [entry_progress_at, hp]
    exact ease_out_cubic_mono ht12
  · intro hp
    simp only [entry_progress_at, hp]
  · intro hp
    constructor
    · simp only [entry_progress_at, hp]
      have := ease_in_cubic_mono ht12
      linarith
    · intro hdone
      have helapsed : durationSince now2 e.phase_started = now2 - e.phase_started := by
        have : (0 : ℚ) ≤ now2 - e.phase_started := by linarith
        rw [durationSince_eq_max, max_eq_left this]
      have hge : (1 : ℚ) ≤ durationSince now2 e.phase_started / anim := by
        rw [helapsed, le_div_iff₀ ha]
        linarith
      have ht2 : min (durationSince now2 e.phase_started / anim) 1 = 1 :=
        min_eq_right hge
      simp only [entry_progress_at, hp, ht2]
      norm_num [ease_in_cubic]
  · cases hph : e.phase with
    | slideIn =>
      simp only [entry_progress_at, hph, ease_out_cubic]
      have : (0 : ℚ) ≤ (1 - min (durationSince now1 e.phase_started / anim) 1) ^ 3 :=
        pow_nonneg (by linarith) 3
      linarith
    | display => simp [entry_progress_at, hph]
    | slideOut =>
      simp only [entry_progress_at, hph]
      have := ease_in_cubic_nonneg ht1nn
      linarith

/-- C6 witness: a concrete SlideIn entry with animation duration 1 sampled
at instants 0 and 1 has non-decreasing progress. -/
theorem entry_progress_at_monotone_witness :
    entry_progress_at 1 exSlideInEntry 0 ≤ entry_progress_at 1 exSlideInEntry 1 :=
  (entry_progress_at_monotone 1 exSlideInEntry 0 1 (by norm_num) (by decide) (by norm_num)).1 rfl

/- ### C7 -/

theorem countActive_pos_iff (es : List PopupEntry) :
    0 < countActive es ↔ ∃ e ∈ es, e.phase ≠ PopupPhase.slideOut := by
  rw [countActive, List.length_pos]
  constructor
  · intro h
    rcases List.exists_mem_of_ne_nil _ h with ⟨e, he⟩
    have hm := List.mem_filter.mp he
    exact ⟨e, hm.1, by simpa using hm.2⟩
  · rintro ⟨e, he, hph⟩
    intro hnil
    have := List.filter_eq_nil_iff.mp hnil e he
    simp [hph] at this

theorem countActive_eq_zero_of_all_slideOut {es : List PopupEntry}
    (h : ∀ e ∈ es, e.phase = PopupPhase.slideOut) : countActive es = 0 := by
  simp only [countActive, List.length_eq_zero, List.filter_eq_nil_iff]
  intro e he
  simp [h e he]

/-- C7: target_surface_height_at snaps to (non-SlideOut count) x 80 + 16
whenever some entry is not SlideOut, equals the full height for the total
entry count scaled by the maximum entry progress when the list is non-empty
but every entry is SlideOut, and is 0 on the empty list. -/
theorem target_surface_height_cases (st : PopupState) (now : ℚ) :
    ((∃ e ∈ st.entries, e.phase ≠ PopupPhase.slideOut) →
      st.target_surface_height_at now = (countActive st.entries : ℚ) * 80 + 16) ∧
    ((st.entries ≠ [] ∧ ∀ e ∈ st.entries, e.phase = PopupPhase.slideOut) →
      st.target_surface_height_at now =
        ((st.entries.length : ℚ) * 80 + 16) *
          maxEntryProgress st.animation_duration st.entries now) ∧
    (st.entries = [] → st.target_surface_height_at now = 0) := by
  refine ⟨?_, ?_, ?_⟩
  · intro h
    have hpos : countActive st.entries > 0 := (countActive_pos_iff st.entries).mpr h
    simp only [PopupState.target_surface_height_at, if_pos hpos]
  · rintro ⟨hne, hall⟩
    have hzero : countActive st.entries = 0 := countActive_eq_zero_of_all_slideOut hall
    have hnotpos : ¬ (countActive st.entries > 0) := by omega
    have hnonempty : (!st.entries.isEmpty) = true := by
      simp [List.isEmpty_iff, hne]
    simp only [PopupState.target_surface_height_at, if_neg hnotpos, hnonempty, if_pos]
  · intro h
    simp [PopupState.target_surface_height_at, h, countActive]

/-- C7 witness: two non-SlideOut entries give exactly 2 x 80 + 16 = 176. -/
theorem target_surface_height_cases_witness :
    exTwoActiveState.target_surface_height_at 0 = 176 := by
  rw [(target_surface_height_cases exTwoActiveState 0).1
    ⟨exEntry 1 PopupPhase.display 0 5, by decide, by decide⟩]
  have h2 : countActive exTwoActiveState.entries = 2 := by decide
  rw [h2]
  norm_num

/- ### C10 -/

theorem tickEntry_notification (anim now : ℚ) (e : PopupEntry) :
    (tickEntry anim now e).notification = e.notification := by
  cases hph : e.phase <;> simp only [tickEntry, hph] <;> split <;> rfl

theorem tick_entries (st : PopupState) (now : ℚ) :
    ((st.tick now).1).entries =
      (st.entries.map (tickEntry st.animation_duration now)).filter
        (keepEntry st.animation_duration now) := rfl

theorem active_entry_survives_tick (st : PopupState) (now : ℚ)
    (ha : 0 < st.animation_duration) {e : PopupEntry} (he : e ∈ st.entries)
    (hph : e.phase ≠ PopupPhase.slideOut) :
    tickEntry st.animation_duration now e ∈ ((st.tick now).1).entries ∧
    (tickEntry st.animation_duration now e).notification = e.notification ∧
    (e.phase = PopupPhase.slideIn →
      (tickEntry st.animation_duration now e).phase ≠ PopupPhase.slideOut) := by
  have hmem : tickEntry st.animation_duration now e ∈
      st.entries.map (tickEntry st.animation_duration now) :=
    List.mem_map_of_mem _ he
  have hkeep : keepEntry st.animation_duration now (tickEntry st.animation_duration now e) =
      true := by
    cases hp : e.phase with
    | slideIn =>
      simp only [tickEntry, hp]
      split <;> simp [keepEntry, hp]
    | display =>
      simp only [tickEntry, hp]
      split
      · simp only [keepEntry, if_pos]
        have hzero : durationSince now now = 0 := by
          simp [durationSince]
        simp [hzero, ha]
      · simp [keepEntry, hp]
    | slideOut => exact absurd hp hph
  refine ⟨?_, tickEntry_notification _ _ _, ?_⟩
  · rw [tick_entries]
    exact List.mem_filter.mpr ⟨hmem, hkeep⟩
  · intro hp
    simp only [tickEntry, hp]
    split <;> simp [hp]

/-- C10 counterexample: with animation_duration = 0, an entry that enters
SlideOut during a tick call is removed by that same call — the concrete
state has a non-SlideOut (Display) entry and a single tick empties it. -/
theorem tick_removes_fresh_slideOut_at_zero_anim :
    (∃ e ∈ exZeroAnimState.entries, e.phase ≠ PopupPhase.slideOut) ∧
      ((exZeroAnimState.tick 5).1).entries = [] := by
  constructor
  · exact ⟨exEntry 1 PopupPhase.display 0 0, by decide, by decide⟩
  · have hd : durationSince 5 0 = 5 := by
      rw [durationSince]
      norm_num
    have hd0 : durationSince 5 5 = 0 := by
      rw [durationSince]
      norm_num
    simp only [PopupState.tick, exZeroAnimState, exEntry, exNotif, List.map, tickEntry, hd]
    norm_num [keepEntry, hd0, List.filter]

/-- C10 (amended): provided animation_duration is positive, a single tick
advances each entry by at most one phase — an entry in SlideIn at the start
is neither moved to SlideOut nor removed by that call, an entry entering
SlideOut during the call is not removed in the same call however much time
elapsed before it (every transition resets phase_started to now), and a
SlideIn entry still exists after two consecutive ticks, so removal takes at
least three tick calls. -/
theorem tick_single_phase_step (st : PopupState) (now1 now2 : ℚ)
    (ha : 0 < st.animation_duration) :
    (∀ e ∈ st.entries, e.phase = PopupPhase.slideIn →
      (tickEntry st.animation_duration now1 e).phase ≠ PopupPhase.slideOut ∧
      ∃ e' ∈ ((st.tick now1).1).entries,
        e'.notification = e.notification ∧ e'.phase ≠ PopupPhase.slideOut) ∧
    (∀ e ∈ st.entries, e.phase ≠ PopupPhase.slideOut →
      ∃ e' ∈ ((st.tick now1).1).entries, e'.notification = e.notification) ∧
    (∀ e ∈ st.entries, e.phase = PopupPhase.slideIn →
      ∃ e' ∈ (((st.tick now1).1).tick now2).1.entries,
        e'.notification = e.notification) := by
  have ha1 : 0 < ((st.tick now1).1).animation_duration := ha
  refine ⟨?_, ?_, ?_⟩
  · intro e he hp
    have h := active_entry_survives_tick st now1 ha he (by simp [hp])
    exact ⟨h.2.2 hp, tickEntry st.animation_duration now1 e, h.1, h.2.1, h.2.2 hp⟩
  · intro e he hp
    have h := active_entry_survives_tick st now1 ha he hp
    exact ⟨tickEntry st.animation_duration now1 e, h.1, h.2.1⟩
  · intro e he hp
    have h := active_entry_survives_tick st now1 ha he (by simp [hp])
    have h2 := active_entry_survives_tick ((st.tick now1).1) now2 ha1 h.1 (h.2.2 hp)
    refine ⟨tickEntry ((st.tick now1).1).animation_duration now2
      (tickEntry st.animation_duration now1 e), h2.1, ?_⟩
    rw [h2.2.1, h.2.1]

/-- C10 witness: a concrete SlideIn entry with positive animation duration
still has a surviving entry after two ticks at instants 10 and 20. -/
theorem tick_single_phase_step_witness :
    ∃ e' ∈ (((exSlideInState.tick 10).1).tick 20).1.entries,
      e'.notification = exSlideInEntry.notification :=
  (tick_single_phase_step exSlideInState 10 20 (by norm_num [exSlideInState])).2.2
    exSlideInEntry (by decide) rfl
